import Mathlib

/-!
Verification of the travel-itinerary manager (`src/index.py`).

Shallow embedding conventions:
* Python strings are Lean `String`s; Python string comparison (`<`, `>=`)
  is code-point lexicographic, modelled by `lexLt` on the character lists.
* Python floats carry only exact user-entered amounts here and are only
  stored and compared, so `budget` is modelled as `ℚ`.
* A Python function that can raise is modelled as an `Option`-valued
  function (`none` = exception propagated / caught by the caller).
* `datetime.strptime(s, "%Y-%m-%d")` is modelled by `parseDate`, following
  CPython's compiled pattern for this format: exactly four digits for
  `%Y`, one or two digits for `%m` (value 1..12) and `%d` (value 1..31),
  the two literal separators, the whole string consumed, then calendar
  validity from the `datetime` constructor (year at least 1, Gregorian
  leap rules).  The digit character class is modelled as the ASCII
  digits, the same convention the embedding uses for case mapping.
* Date subtraction (`timedelta.days`) is modelled via the civil-calendar
  day number `dayNumber` (Gregorian, days counted from 0000-03-01).
-/

namespace TravelPlanner

/-- Result of `datetime.strptime(s, "%Y-%m-%d")`: a calendar date. -/
structure Date where
  year : Nat
  month : Nat
  day : Nat
  deriving DecidableEq, Repr

/-- Gregorian leap-year rule used by `datetime`. -/
def isLeapYear (y : Nat) : Bool :=
  y % 4 == 0 && (y % 100 != 0 || y % 400 == 0)

/-- Number of days in month `m` of year `y`. -/
def daysInMonth (y m : Nat) : Nat :=
  if m == 2 then (if isLeapYear y then 29 else 28)
  else if m == 4 || m == 6 || m == 9 || m == 11 then 30
  else 31

/-- Numeric value of a decimal digit character. -/
def digitVal (c : Char) : Nat := c.toNat - '0'.toNat

/-- Value of a digit string (the `int(...)` conversion of a matched group). -/
def natOfDigits (cs : List Char) : Nat :=
  cs.foldl (fun n c => 10 * n + digitVal c) 0

/-- Shared tail of `parseDate`: all three groups must be digits, the month
and day values must lie in the ranges enforced by `strptime`'s pattern
(`1[0-2]|0[1-9]|[1-9]` and `3[01]|[12]\d|0[1-9]|[1-9]`, i.e. values 1..12
and 1..31 with `0`/`00` excluded), and the `datetime` constructor then
requires year at least 1 and a valid day for the month. -/
def parseDateParts (ys ms ds : List Char) : Option Date :=
  if (ys ++ ms ++ ds).all Char.isDigit then
    let y := natOfDigits ys
    let m := natOfDigits ms
    let d := natOfDigits ds
    if 1 ≤ y ∧ 1 ≤ m ∧ m ≤ 12 ∧ 1 ≤ d ∧ d ≤ daysInMonth y m then some ⟨y, m, d⟩
    else none
  else none

/-- `datetime.strptime(s, "%Y-%m-%d")`: CPython matches exactly four
digits for `%Y` but one *or* two digits for `%m` and `%d` (so the
non-zero-padded `"2024-5-1"` is accepted), requires the whole string to be
consumed, and finally builds the `datetime`, which validates the calendar
date; any failure raises `ValueError` (modelled as `none`).  Because the
literal separator `-` is not a digit, the four possible group shapes are
disjoint, so the pattern's backtracking never changes the outcome. -/
def parseDate (s : String) : Option Date :=
  match s.data with
  | [y1, y2, y3, y4, '-', m1, m2, '-', d1, d2] =>
    parseDateParts [y1, y2, y3, y4] [m1, m2] [d1, d2]
  | [y1, y2, y3, y4, '-', m1, m2, '-', d1] =>
    parseDateParts [y1, y2, y3, y4] [m1, m2] [d1]
  | [y1, y2, y3, y4, '-', m1, '-', d1, d2] =>
    parseDateParts [y1, y2, y3, y4] [m1] [d1, d2]
  | [y1, y2, y3, y4, '-', m1, '-', d1] =>
    parseDateParts [y1, y2, y3, y4] [m1] [d1]
  | _ => none

/-- Civil day number of a date (days since 0000-03-01, Gregorian), the
standard days-from-civil computation; differences of `dayNumber` are
exactly `timedelta.days` of `datetime` subtraction. -/
def dayNumber (dt : Date) : Nat :=
  let y := if dt.month ≤ 2 then dt.year - 1 else dt.year
  let era := y / 400
  let yoe := y % 400
  let mp := (dt.month + 9) % 12
  let doy := (153 * mp + 2) / 5 + dt.day - 1
  let doe := yoe * 365 + yoe / 4 - yoe / 100 + doy
  era * 146097 + doe

/-- Python code-point lexicographic `<` on character lists (the order used
by `end_date >= start_date` in `get_destination_input`). -/
def lexLt : List Char → List Char → Bool
  | [], [] => false
  | [], _ :: _ => true
  | _ :: _, [] => false
  | a :: as, b :: bs => if a = b then lexLt as bs else decide (a < b)

/-- Python string comparison `a < b` (code-point lexicographic). -/
def strLt (a b : String) : Bool := lexLt a.data b.data

/-- `Destination.__init__`: one trip record with the six stored fields. -/
structure Destination where
  city : String
  country : String
  start_date : String
  end_date : String
  budget : ℚ
  activities : List String
  deriving DecidableEq, Repr

/-- A Python dict holding (at most) the six record keys; a `none` field
models an absent key (`data['k']` raises `KeyError`). -/
structure DestDict where
  city? : Option String
  country? : Option String
  start_date? : Option String
  end_date? : Option String
  budget? : Option ℚ
  activities? : Option (List String)
  deriving DecidableEq, Repr

/-- `Destination.to_dict`: serialize the record to a dict with all six keys. -/
def Destination.to_dict (d : Destination) : DestDict :=
  ⟨some d.city, some d.country, some d.start_date, some d.end_date,
    some d.budget, some d.activities⟩

/-- `Destination.from_dict`: build a record from a dict, reading all six
keys; a missing key raises `KeyError` (modelled as `none`). -/
def Destination.from_dict (data : DestDict) : Option Destination := do
  let city ← data.city?
  let country ← data.country?
  let sd ← data.start_date?
  let ed ← data.end_date?
  let b ← data.budget?
  let acts ← data.activities?
  pure ⟨city, country, sd, ed, b, acts⟩

/-- The record-creation validation of `TravelPlannerApp.get_destination_input`
(one validation pass over a single set of inputs): city and country must be
non-empty, both dates must parse as `YYYY-MM-DD`, the end date must not
precede the start date (Python compares the date strings), the budget must
be positive, and at least one activity is required.  `none` models the
validation failure (no record is produced from these inputs). -/
def mkDestination (city country start_date end_date : String) (budget : ℚ)
    (activities : List String) : Option Destination :=
  if city = "" then none
  else if country = "" then none
  else if (parseDate start_date).isNone then none
  else if (parseDate end_date).isNone then none
  else if strLt end_date start_date then none
  else if budget ≤ 0 then none
  else if activities = [] then none
  else some ⟨city, country, start_date, end_date, budget, activities⟩

/-- Python `str.lower()` (character-wise lowercasing). -/
def strLower (s : String) : String := ⟨s.data.map Char.toLower⟩

/-- Python `str.upper()` (character-wise uppercasing). -/
def strUpper (s : String) : String := ⟨s.data.map Char.toUpper⟩

/-- Bool test: does the character list `needle` occur at the start of `hay`?
(the inner step of Python's substring operator `in`). -/
def beginsWith : List Char → List Char → Bool
  | [], _ => true
  | _ :: _, [] => false
  | a :: as, b :: bs => a == b && beginsWith as bs

/-- Python's substring operator `needle in hay` on character lists. -/
def containsSub (needle : List Char) : List Char → Bool
  | [] => beginsWith needle []
  | b :: bs => beginsWith needle (b :: bs) || containsSub needle bs

/-- `ItineraryManager.search_destination`: walk the destination list and
collect, in order, every record the query matches. -/
def matchesQuery (query : String) (dest : Destination) : Bool :=
  containsSub (strLower query).data (strLower dest.city).data ||
  containsSub (strLower query).data (strLower dest.country).data ||
  dest.activities.any fun activity => containsSub (strLower query).data (strLower activity).data

/-- The accumulation loop of `ItineraryManager.search_destination`. -/
def search_destination (query : String) : List Destination → List Destination
  | [] => []
  | dest :: rest =>
    if matchesQuery query dest then dest :: search_destination query rest
    else search_destination query rest

/-- `ItineraryManager.remove_destination`: pop the first record whose city
matches case-insensitively; returns whether a match was found together with
the resulting list. -/
def remove_destination (city : String) : List Destination → Bool × List Destination
  | [] => (false, [])
  | dest :: rest =>
    if strLower dest.city == strLower city then (true, rest)
    else
      let r := remove_destination city rest
      (r.1, dest :: r.2)

/-- Key order used by `ItineraryManager.sort_by_date`
(`key=lambda x: x.start_date`). -/
def dateLe (a b : Destination) : Prop := a.start_date ≤ b.start_date

instance : DecidableRel dateLe := fun a b =>
  inferInstanceAs (Decidable (a.start_date ≤ b.start_date))

instance : IsTotal Destination dateLe := ⟨fun a b => le_total a.start_date b.start_date⟩

instance : IsTrans Destination dateLe := ⟨fun _ _ _ h1 h2 => le_trans h1 h2⟩

/-- Key order used by `ItineraryManager.sort_by_budget`
(`key=lambda x: x.budget`). -/
def budgetLe (a b : Destination) : Prop := a.budget ≤ b.budget

instance : DecidableRel budgetLe := fun a b =>
  inferInstanceAs (Decidable (a.budget ≤ b.budget))

instance : IsTotal Destination budgetLe := ⟨fun a b => le_total a.budget b.budget⟩

instance : IsTrans Destination budgetLe := ⟨fun _ _ _ h1 h2 => le_trans h1 h2⟩

/-- `ItineraryManager.sort_by_date`: Python `list.sort` is a stable
comparison sort; a stable sort on a total order is extensionally unique, so
it is modelled by stable insertion sort. -/
def sort_by_date (l : List Destination) : List Destination := l.insertionSort dateLe

/-- `ItineraryManager.sort_by_budget` (same modelling as `sort_by_date`). -/
def sort_by_budget (l : List Destination) : List Destination := l.insertionSort budgetLe

/-- `ItineraryManager.save_to_file`: the JSON array written to disk is the
list of the records' dicts (`[dest.to_dict() for dest in self.destinations]`). -/
def save_to_file (dests : List Destination) : List DestDict :=
  dests.map Destination.to_dict

/-- The list comprehension
`[Destination.from_dict(item) for item in data]` of
`ItineraryManager.load_from_file`: it is evaluated in full before being
assigned, and any `KeyError` aborts the whole comprehension. -/
def loadRecords : List DestDict → Option (List Destination)
  | [] => some []
  | item :: rest =>
    match Destination.from_dict item, loadRecords rest with
    | some d, some ds => some (d :: ds)
    | _, _ => none

/-- Outcome reported by a save/load call (a printed success or error line;
no exception ever escapes). -/
inductive LoadResult where
  | ok
  | error
  deriving DecidableEq, Repr

/-- The backing file as `load_from_file` can encounter it: absent, present
but unreadable (an I/O error on `open`/`read`), present but not valid JSON
(`json.load` raises), or a parsed JSON array of record dicts. -/
inductive FileState where
  | absent
  | unreadable
  | malformed
  | content (data : List DestDict)
  deriving DecidableEq, Repr

/-- `ItineraryManager.load_from_file`, as a function from the file state
and the current in-memory list to the new list and reported outcome.  The
early return on a missing file, the `except` that catches every read/parse
failure, and the all-or-nothing comprehension are each modelled by a case. -/
def load_from_file (fs : FileState) (dests : List Destination) :
    List Destination × LoadResult :=
  match fs with
  | .absent => (dests, .ok)
  | .unreadable => (dests, .error)
  | .malformed => (dests, .error)
  | .content data =>
    match loadRecords data with
    | some ds => (ds, .ok)
    | none => (dests, .error)

/-- One keyword argument passed to `Destination.update_details`: either one
of the six existing attributes with a new value, or any other attribute
name (for which `hasattr` is false). -/
inductive FieldUpd where
  | city (v : String)
  | country (v : String)
  | start_date (v : String)
  | end_date (v : String)
  | budget (v : ℚ)
  | activities (v : List String)
  | unknownAttr (nm : String)
  deriving DecidableEq, Repr

/-- One iteration of the `update_details` loop:
`if hasattr(self, key): setattr(self, key, value)`. -/
def applyUpd (d : Destination) : FieldUpd → Destination
  | .city v => { d with city := v }
  | .country v => { d with country := v }
  | .start_date v => { d with start_date := v }
  | .end_date v => { d with end_date := v }
  | .budget v => { d with budget := v }
  | .activities v => { d with activities := v }
  | .unknownAttr _ => d

/-- `Destination.update_details(**kwargs)`: apply each keyword argument in
order, setting only attributes that exist on the record. -/
def update_details (d : Destination) (kwargs : List FieldUpd) : Destination :=
  kwargs.foldl applyUpd d

/-- `AITravelAssistant`: after construction the only state the generation
methods consult is whether a usable client exists (`self.client`), carried
here as the resolved API key. -/
structure AITravelAssistant where
  client : Option String
  deriving DecidableEq, Repr

/-- `AITravelAssistant.is_available`. -/
def is_available (a : AITravelAssistant) : Bool := a.client.isSome

/-- The row of 40 equals signs (`'='*40`) in both fallback templates. -/
def eqRow40 : String := "========================================"

/-- The `({days} days)` fragment of the fallback itinerary header. -/
def dayCountText (days : Int) : String := "(" ++ toString days ++ " days)"

/-- The fallback itinerary text up to the day count. -/
def fallbackHead (d : Destination) : String :=
  "\n🚫 AI Features Unavailable - Basic Itinerary Template\n\n📍 " ++ d.city ++
  ", " ++ d.country ++ "\n📅 " ++ d.start_date ++ " to " ++ d.end_date ++ " "

/-- The fallback itinerary text after the day count.  The two activity
slots mirror the guarded Python subscriptions
(`activities[0] if activities else ...`,
`activities[1] if len(activities) > 1 else ...`). -/
def fallbackTail (d : Destination) (days : Int) : String :=
  "\n💰 Budget: $" ++ toString d.budget ++ "\n🎯 Activities: " ++
  String.intercalate ", " d.activities ++
  "\n\n📋 SUGGESTED DAILY STRUCTURE:\n" ++ eqRow40 ++
  "\n\nDay 1: Arrival & City Orientation\n- Check into accommodation\n- Explore nearby area\n- Local restaurant for dinner\n\nDay 2-" ++
  toString (days - 1) ++ ": Main Activities\n- Morning: " ++
  (match d.activities with
   | [] => "Sightseeing"
   | a :: _ => a) ++
  "\n- Afternoon: " ++
  (match d.activities with
   | _ :: b :: _ => b
   | _ => "Local exploration") ++
  "\n- Evening: Local cuisine and culture\n\nDay " ++ toString days ++
  ": Departure\n- Last-minute shopping/activities\n- Check out and travel home\n\n💡 GENERAL TIPS:\n- Research local transportation options\n- Book accommodations in advance\n- Try local street food\n- Visit tourist information centers\n- Keep emergency contacts handy\n\n⚠️  For detailed, personalized itineraries, please set up your OpenAI API key.\n"

/-- `AITravelAssistant._generate_fallback_itinerary`: computes the
inclusive day count by parsing both date strings (`strptime` raises on a
malformed date, modelled as `none`), then fills the fixed template. -/
def generate_fallback_itinerary (d : Destination) : Option String :=
  match parseDate d.end_date, parseDate d.start_date with
  | some de, some ds =>
    let days : Int := (dayNumber de : Int) - (dayNumber ds : Int) + 1
    some (fallbackHead d ++ dayCountText days ++ fallbackTail d days)
  | _, _ => none

/-- `AITravelAssistant._generate_fallback_budget_tips`: a fixed template
over the city name alone; involves no parsing and cannot fail. -/
def generate_fallback_budget_tips (d : Destination) : String :=
  "\n🚫 AI Features Unavailable - General Budget Tips\n\n💰 BUDGET TIPS FOR " ++
  strUpper d.city ++ "\n" ++ eqRow40 ++
  "\n\n🏠 ACCOMMODATION:\n- Consider hostels or budget hotels\n- Look for accommodations outside city center\n- Book in advance for better rates\n- Check for group discounts\n\n🍽️ FOOD & DINING:\n- Eat at local markets and street food stalls\n- Cook meals if accommodation has kitchen\n- Look for lunch specials and happy hours\n- Avoid touristy restaurant areas\n\n🚌 TRANSPORTATION:\n- Use public transport instead of taxis\n- Walk or rent bicycles when possible\n- Look for day passes or tourist cards\n- Book flights/trains in advance\n\n🎯 ACTIVITIES:\n- Look for free walking tours\n- Visit free museums on designated days\n- Enjoy parks and natural attractions\n- Check for student/senior discounts\n\n💡 GENERAL MONEY-SAVING TIPS:\n- Set a daily spending limit\n- Use budget tracking apps\n- Avoid currency exchange at airports\n- Negotiate prices at local markets\n- Travel during off-peak seasons\n\n⚠️  For location-specific budget advice, please set up your OpenAI API key.\n"

/-- `AITravelAssistant.generate_itinerary`: when a client is available the
result comes from the external chat-completion call (modelled by the
oracle `api`); otherwise the deterministic local fallback is used. -/
def generate_itinerary (a : AITravelAssistant) (api : Destination → String)
    (d : Destination) : Option String :=
  if is_available a then some (api d) else generate_fallback_itinerary d

/-- `AITravelAssistant.generate_budget_tips` (same shape as
`generate_itinerary`; the fallback template cannot fail). -/
def generate_budget_tips (a : AITravelAssistant) (api : Destination → String)
    (d : Destination) : Option String :=
  if is_available a then some (api d) else some (generate_fallback_budget_tips d)

/-! ## Helper lemmas -/

theorem loadRecords_save : ∀ l : List Destination, loadRecords (save_to_file l) = some l
  | [] => rfl
  | d :: l => by
    simp only [save_to_file, List.map_cons, loadRecords]
    rw [show Destination.from_dict d.to_dict = some d from rfl]
    rw [show loadRecords (List.map Destination.to_dict l) = loadRecords (save_to_file l) from rfl]
    rw [loadRecords_save l]

theorem beginsWith_iff : ∀ n h : List Char, beginsWith n h = true ↔ n <+: h
  | [], h => by simp [beginsWith]
  | a :: as, [] => by simp [beginsWith]
  | a :: as, b :: bs => by
    simp only [beginsWith, Bool.and_eq_true, beq_iff_eq, beginsWith_iff as bs]
    constructor
    · rintro ⟨rfl, t, rfl⟩
      exact ⟨t, rfl⟩
    · rintro ⟨t, ht⟩
      injection ht with h1 h2
      exact ⟨h1, t, h2⟩

theorem containsSub_iff : ∀ n h : List Char, containsSub n h = true ↔ n <:+: h
  | n, [] => by
    simp [containsSub, beginsWith_iff, List.infix_nil]
  | n, b :: bs => by
    simp only [containsSub, Bool.or_eq_true, beginsWith_iff, containsSub_iff n bs,
      List.infix_cons_iff]

theorem containsSub_nil : ∀ h : List Char, containsSub [] h = true
  | [] => rfl
  | _ :: bs => by simp [containsSub, beginsWith]

theorem str_append_ne (s t : String) (h : s ≠ "") : s ++ t ≠ "" := by
  intro he
  apply h
  have hd := congrArg String.data he
  simp only [String.data_append] at hd
  exact String.ext (List.append_eq_nil.mp hd).1

/-! ## Claims -/

/-- C7: deserializing the serialization of a record yields a record equal
to it in all six fields: `from_dict (to_dict r) = r`. -/
theorem serialize_roundtrip (r : Destination) : Destination.from_dict r.to_dict = some r := rfl

/-- C1: for every record sequence, writing it with `save_to_file` and
reading the resulting file back with `load_from_file` succeeds and
reproduces exactly the same sequence (same length, order and field
values), whatever the in-memory sequence was before the load. -/
theorem save_load_roundtrip (dests old : List Destination) :
    load_from_file (.content (save_to_file dests)) old = (dests, .ok) := by
  simp [load_from_file, loadRecords_save]

/-- C5: `load_from_file` never partially overwrites the in-memory
sequence: a missing file leaves it untouched and reports success; an I/O
error, malformed JSON, or any record missing a required key leaves it
exactly as it was and reports the failure; only a fully deserialized array
replaces it, wholesale. -/
theorem load_failure_preserves_state (old : List Destination) :
    load_from_file .absent old = (old, .ok) ∧
    load_from_file .unreadable old = (old, .error) ∧
    load_from_file .malformed old = (old, .error) ∧
    (∀ data, loadRecords data = none → load_from_file (.content data) old = (old, .error)) ∧
    (∀ data ds, loadRecords data = some ds → load_from_file (.content data) old = (ds, .ok)) := by
  refine ⟨rfl, rfl, rfl, fun data h => ?_, fun data ds h => ?_⟩
  · simp [load_from_file, h]
  · simp [load_from_file, h]

/-- Witness for C5 at a concrete store and a record dict missing its keys. -/
theorem load_failure_preserves_state_witness :
    load_from_file (.content [⟨none, some "France", none, none, none, none⟩])
        [⟨"Rome", "Italy", "2024-01-01", "2024-01-02", 100, ["Walking"]⟩] =
      ([⟨"Rome", "Italy", "2024-01-01", "2024-01-02", 100, ["Walking"]⟩], .error) :=
  (load_failure_preserves_state _).2.2.2.1 _ rfl

/-- C2: `search_destination` returns exactly the subsequence of the store
(filter, so original order and duplicates preserved) of records whose
city, country, or some activity contains the query case-insensitively;
the empty query returns every record. -/
theorem search_destination_spec (query : String) (dests : List Destination) :
    search_destination query dests = dests.filter (matchesQuery query) ∧
    (∀ d, matchesQuery query d = true ↔
      ((strLower query).data <:+: (strLower d.city).data ∨
       (strLower query).data <:+: (strLower d.country).data ∨
       ∃ a, a ∈ d.activities ∧ (strLower query).data <:+: (strLower a).data)) ∧
    search_destination "" dests = dests ∧
    List.Sublist (search_destination query dests) dests := by
  have hfilter : ∀ q (l : List Destination), search_destination q l = l.filter (matchesQuery q) := by
    intro q l
    induction l with
    | nil => rfl
    | cons d l ih => by_cases h : matchesQuery q d <;> simp [search_destination, List.filter, h, ih]
  refine ⟨hfilter query dests, fun d => ?_, ?_, ?_⟩
  · simp only [matchesQuery, Bool.or_eq_true, containsSub_iff, List.any_eq_true]
    exact or_assoc
  · rw [hfilter]
    apply List.filter_eq_self.mpr
    intro d _
    have : strLower "" = "" := rfl
    simp [matchesQuery, this, containsSub_nil]
  · rw [hfilter]
    exact List.filter_sublist dests

theorem remove_destination_not_found (city : String) :
    ∀ l : List Destination, (∀ d ∈ l, strLower d.city ≠ strLower city) →
      remove_destination city l = (false, l)
  | [], _ => rfl
  | d :: l, h => by
    have hd : (strLower d.city == strLower city) = false := by
      simpa using h d (List.mem_cons_self d l)
    simp [remove_destination, hd, remove_destination_not_found city l
      fun x hx => h x (List.mem_cons_of_mem d hx)]

theorem remove_destination_found (city : String) :
    ∀ (l₁ : List Destination) (d : Destination) (l₂ : List Destination),
      (∀ x ∈ l₁, strLower x.city ≠ strLower city) → strLower d.city = strLower city →
      remove_destination city (l₁ ++ d :: l₂) = (true, l₁ ++ l₂)
  | [], d, l₂, _, hd => by simp [remove_destination, hd]
  | x :: l₁, d, l₂, h, hd => by
    have hx : (strLower x.city == strLower city) = false := by
      simpa using h x (List.mem_cons_self x l₁)
    simp [remove_destination, hx,
      remove_destination_found city l₁ d l₂ (fun y hy => h y (List.mem_cons_of_mem x hy)) hd]

theorem remove_destination_true_iff (city : String) :
    ∀ l : List Destination,
      (remove_destination city l).1 = true ↔ ∃ d ∈ l, strLower d.city = strLower city
  | [] => by simp [remove_destination]
  | d :: l => by
    by_cases hd : strLower d.city = strLower city
    · simp [remove_destination, hd]
    · have hd' : (strLower d.city == strLower city) = false := by simpa using hd
      simp [remove_destination, hd', remove_destination_true_iff city l, hd]

theorem remove_destination_length (city : String) :
    ∀ l : List Destination, (remove_destination city l).1 = true →
      ((remove_destination city l).2).length + 1 = l.length
  | [] => by simp [remove_destination]
  | d :: l => by
    by_cases hd : (strLower d.city == strLower city) = true
    · simp [remove_destination, hd]
    · have hd' : (strLower d.city == strLower city) = false := by
        simpa using hd
      simp only [remove_destination, hd', Bool.false_eq_true, if_false, List.length_cons]
      intro h
      rw [← remove_destination_length city l h]

/-- C3: `remove_destination` returns `false` and leaves the list unchanged
when no record city matches case-insensitively; when a match exists it
returns `true`, removes exactly the first (lowest-index) match, keeps all
other records in their relative order, and shrinks the list by one. -/
theorem remove_destination_spec (city : String) (l : List Destination) :
    ((∀ d ∈ l, strLower d.city ≠ strLower city) → remove_destination city l = (false, l)) ∧
    (∀ l₁ d l₂, l = l₁ ++ d :: l₂ → (∀ x ∈ l₁, strLower x.city ≠ strLower city) →
      strLower d.city = strLower city → remove_destination city l = (true, l₁ ++ l₂)) ∧
    ((remove_destination city l).1 = true ↔ ∃ d ∈ l, strLower d.city = strLower city) ∧
    ((remove_destination city l).1 = true →
      ((remove_destination city l).2).length + 1 = l.length) :=
  ⟨remove_destination_not_found city l,
   fun l₁ d l₂ he h1 h2 => he ▸ remove_destination_found city l₁ d l₂ h1 h2,
   remove_destination_true_iff city l,
   remove_destination_length city l⟩

/-- Witness for C3: removing `"paris"` case-insensitively removes the
first matching record of a two-record store. -/
theorem remove_destination_spec_witness :
    remove_destination "paris"
        [⟨"Paris", "France", "2024-05-01", "2024-05-05", 1500, ["Museums"]⟩,
         ⟨"Rome", "Italy", "2024-06-01", "2024-06-05", 900, ["Ruins"]⟩] =
      (true, [⟨"Rome", "Italy", "2024-06-01", "2024-06-05", 900, ["Ruins"]⟩]) :=
  (remove_destination_spec "paris" _).2.1 []
    ⟨"Paris", "France", "2024-05-01", "2024-05-05", 1500, ["Museums"]⟩
    [⟨"Rome", "Italy", "2024-06-01", "2024-06-05", 900, ["Ruins"]⟩]
    rfl (by simp) (by decide)

/-- C4: record creation succeeds exactly when the city and country are
non-empty, both dates parse as `YYYY-MM-DD`, the end date does not precede
the start date, the budget is positive, and at least one activity is
given — each condition independently causes the failure — and a created
record carries exactly the given six field values. -/
theorem destination_validation_spec (city country sd ed : String) (budget : ℚ)
    (acts : List String) :
    ((∃ r, mkDestination city country sd ed budget acts = some r) ↔
      (city ≠ "" ∧ country ≠ "" ∧ parseDate sd ≠ none ∧ parseDate ed ≠ none ∧
        strLt ed sd = false ∧ 0 < budget ∧ acts ≠ [])) ∧
    (∀ r, mkDestination city country sd ed budget acts = some r →
      r = ⟨city, country, sd, ed, budget, acts⟩) := by
  constructor
  · unfold mkDestination
    split_ifs with h1 h2 h3 h4 h5 h6 h7 <;>
      simp_all [Option.isNone_iff_eq_none, not_lt, le_of_lt]
  · unfold mkDestination
    split_ifs <;> intro r h <;> simp_all

/-- Witness for C4: a fully valid input yields exactly the corresponding
record. -/
theorem destination_validation_spec_witness :
    ∃ r, mkDestination "Paris" "France" "2024-05-01" "2024-05-05" 1500 ["Museums", "Food"]
        = some r ∧
      r = ⟨"Paris", "France", "2024-05-01", "2024-05-05", 1500, ["Museums", "Food"]⟩ := by
  obtain ⟨r, hr⟩ := (destination_validation_spec "Paris" "France" "2024-05-01" "2024-05-05"
    1500 ["Museums", "Food"]).1.mpr (by decide)
  exact ⟨r, hr, (destination_validation_spec "Paris" "France" "2024-05-01" "2024-05-05"
    1500 ["Museums", "Food"]).2 r hr⟩

theorem update_details_preserve {γ : Type} (f : Destination → γ) :
    ∀ (kwargs : List FieldUpd), (∀ e u, u ∈ kwargs → f (applyUpd e u) = f e) →
      ∀ d, f (update_details d kwargs) = f d
  | [], _, _ => rfl
  | u :: us, hf, d => by
    have tail := update_details_preserve f us
      (fun e w hw => hf e w (List.mem_cons_of_mem u hw)) (applyUpd d u)
    have head := hf d u (List.mem_cons_self u us)
    simp only [update_details, List.foldl_cons] at tail ⊢
    rw [tail, head]

/-- C9: `update_details` modifies exactly the named fields that exist on
the record: appending an update of an existing field sets that field,
every unknown attribute name is silently ignored, and any field not named
in the argument list keeps its previous value. -/
theorem update_details_spec (d : Destination) (kwargs : List FieldUpd) :
    (∀ nm, update_details d (kwargs ++ [.unknownAttr nm]) = update_details d kwargs) ∧
    (∀ v, update_details d (kwargs ++ [.city v]) = { update_details d kwargs with city := v }) ∧
    (∀ v, update_details d (kwargs ++ [.country v]) =
      { update_details d kwargs with country := v }) ∧
    (∀ v, update_details d (kwargs ++ [.start_date v]) =
      { update_details d kwargs with start_date := v }) ∧
    (∀ v, update_details d (kwargs ++ [.end_date v]) =
      { update_details d kwargs with end_date := v }) ∧
    (∀ v, update_details d (kwargs ++ [.budget v]) =
      { update_details d kwargs with budget := v }) ∧
    (∀ v, update_details d (kwargs ++ [.activities v]) =
      { update_details d kwargs with activities := v }) ∧
    ((∀ v, FieldUpd.city v ∉ kwargs) → (update_details d kwargs).city = d.city) ∧
    ((∀ v, FieldUpd.country v ∉ kwargs) → (update_details d kwargs).country = d.country) ∧
    ((∀ v, FieldUpd.start_date v ∉ kwargs) →
      (update_details d kwargs).start_date = d.start_date) ∧
    ((∀ v, FieldUpd.end_date v ∉ kwargs) → (update_details d kwargs).end_date = d.end_date) ∧
    ((∀ v, FieldUpd.budget v ∉ kwargs) → (update_details d kwargs).budget = d.budget) ∧
    ((∀ v, FieldUpd.activities v ∉ kwargs) →
      (update_details d kwargs).activities = d.activities) := by
  refine ⟨fun nm => ?_, fun v => ?_, fun v => ?_, fun v => ?_, fun v => ?_, fun v => ?_,
    fun v => ?_, fun h => ?_, fun h => ?_, fun h => ?_, fun h => ?_, fun h => ?_, fun h => ?_⟩
  · simp [update_details, applyUpd]
  · simp [update_details, applyUpd]
  · simp [update_details, applyUpd]
  · simp [update_details, applyUpd]
  · simp [update_details, applyUpd]
  · simp [update_details, applyUpd]
  · simp [update_details, applyUpd]
  · refine update_details_preserve _ kwargs (fun e u hu => ?_) d
    cases u with
    | city v => exact absurd hu (h v)
    | _ => rfl
  · refine update_details_preserve _ kwargs (fun e u hu => ?_) d
    cases u with
    | country v => exact absurd hu (h v)
    | _ => rfl
  · refine update_details_preserve _ kwargs (fun e u hu => ?_) d
    cases u with
    | start_date v => exact absurd hu (h v)
    | _ => rfl
  · refine update_details_preserve _ kwargs (fun e u hu => ?_) d
    cases u with
    | end_date v => exact absurd hu (h v)
    | _ => rfl
  · refine update_details_preserve _ kwargs (fun e u hu => ?_) d
    cases u with
    | budget v => exact absurd hu (h v)
    | _ => rfl
  · refine update_details_preserve _ kwargs (fun e u hu => ?_) d
    cases u with
    | activities v => exact absurd hu (h v)
    | _ => rfl

/-- Witness for C9: an unknown attribute name is ignored and an update of
only `budget` leaves the city untouched. -/
theorem update_details_spec_witness :
    update_details ⟨"Paris", "France", "2024-05-01", "2024-05-05", 1500, ["Museums"]⟩
        ([.budget 2000] ++ [.unknownAttr "nickname"]) =
      update_details ⟨"Paris", "France", "2024-05-01", "2024-05-05", 1500, ["Museums"]⟩
        [.budget 2000] ∧
    (update_details ⟨"Paris", "France", "2024-05-01", "2024-05-05", 1500, ["Museums"]⟩
        [.budget 2000]).city = "Paris" := by
  constructor
  · exact (update_details_spec _ [.budget 2000]).1 "nickname"
  · refine (update_details_spec _ [.budget 2000]).2.2.2.2.2.2.2.1 ?_
    intro v hv
    simp at hv

theorem filter_orderedInsert_key {β : Type} [LinearOrder β] (key : Destination → β)
    (r : Destination → Destination → Prop) [DecidableRel r]
    (hr : ∀ a b, r a b ↔ key a ≤ key b) (p : Destination → Bool)
    (hp : ∀ x y, p x = true → p y = true → key x = key y) (a : Destination) :
    ∀ l : List Destination,
      (List.orderedInsert r a l).filter p =
        if p a then a :: l.filter p else l.filter p
  | [] => by
    by_cases hv : p a = true <;> simp [List.orderedInsert, hv]
  | b :: l => by
    by_cases hab : r a b
    · by_cases hv : p a = true <;> simp [List.orderedInsert, hab, hv]
    · have hba : key b < key a := lt_of_not_le fun hle => hab ((hr a b).mpr hle)
      have ih := filter_orderedInsert_key key r hr p hp a l
      by_cases hbv : p b = true
      · have hav : p a = false := by
          cases hpa : p a with
          | false => rfl
          | true => exact absurd (hp b a hbv hpa) (ne_of_lt hba)
        simp [List.orderedInsert, hab, hbv, hav, ih]
      · by_cases hav : p a = true <;> simp [List.orderedInsert, hab, hbv, hav, ih]

theorem filter_insertionSort_key {β : Type} [LinearOrder β] (key : Destination → β)
    (r : Destination → Destination → Prop) [DecidableRel r]
    (hr : ∀ a b, r a b ↔ key a ≤ key b) (p : Destination → Bool)
    (hp : ∀ x y, p x = true → p y = true → key x = key y) :
    ∀ l : List Destination, (List.insertionSort r l).filter p = l.filter p
  | [] => rfl
  | b :: l => by
    simp only [List.insertionSort]
    rw [filter_orderedInsert_key key r hr p hp b (List.insertionSort r l),
      filter_insertionSort_key key r hr p hp l]
    by_cases hv : p b = true <;> simp [hv]

/-- C8: both sorts reorder the list ascending by their sole key
(`start_date`, resp. `budget`), preserve the multiset of records
(permutation: nothing added, removed or modified), and are stable: the
records carrying any fixed key value appear in exactly their original
relative order. -/
theorem sort_stable_spec (l : List Destination) :
    List.Perm (sort_by_date l) l ∧
    List.Sorted dateLe (sort_by_date l) ∧
    (∀ k : String, (sort_by_date l).filter (fun x => decide (x.start_date = k)) =
      l.filter (fun x => decide (x.start_date = k))) ∧
    List.Perm (sort_by_budget l) l ∧
    List.Sorted budgetLe (sort_by_budget l) ∧
    (∀ q : ℚ, (sort_by_budget l).filter (fun x => decide (x.budget = q)) =
      l.filter (fun x => decide (x.budget = q))) :=
  ⟨List.perm_insertionSort dateLe l,
   List.sorted_insertionSort dateLe l,
   fun k => filter_insertionSort_key (fun x => x.start_date) dateLe (fun _ _ => Iff.rfl)
     (fun x => decide (x.start_date = k))
     (fun x y hx hy => by simp_all) l,
   List.perm_insertionSort budgetLe l,
   List.sorted_insertionSort budgetLe l,
   fun q => filter_insertionSort_key (fun x => x.budget) budgetLe (fun _ _ => Iff.rfl)
     (fun x => decide (x.budget = q))
     (fun x y hx hy => by simp_all) l⟩

/-- C6: with no client available, both generation calls succeed with
non-empty text that is computed locally from the record alone — the result
is independent of the external oracle, so equal records always yield
identical text — and the itinerary text carries the inclusive day count
`end - start + 1` between the parsed dates. -/
theorem offline_generation_spec (a : AITravelAssistant) (api api2 : Destination → String)
    (d : Destination) (ds de : Date) (hna : is_available a = false)
    (hs : parseDate d.start_date = some ds) (he : parseDate d.end_date = some de) :
    ∃ s : String,
      generate_itinerary a api d = some s ∧
      generate_itinerary a api2 d = some s ∧
      s ≠ "" ∧
      (dayCountText ((dayNumber de : Int) - (dayNumber ds : Int) + 1)).data <:+: s.data ∧
      generate_budget_tips a api d = some (generate_fallback_budget_tips d) ∧
      generate_budget_tips a api2 d = some (generate_fallback_budget_tips d) ∧
      generate_fallback_budget_tips d ≠ "" := by
  refine ⟨fallbackHead d ++ dayCountText ((dayNumber de : Int) - (dayNumber ds : Int) + 1) ++
    fallbackTail d ((dayNumber de : Int) - (dayNumber ds : Int) + 1),
    ?_, ?_, ?_, ?_, ?_, ?_, ?_⟩
  · simp [generate_itinerary, hna, generate_fallback_itinerary, hs, he]
  · simp [generate_itinerary, hna, generate_fallback_itinerary, hs, he]
  · simp only [fallbackHead]
    repeat apply str_append_ne
    decide
  · exact ⟨(fallbackHead d).data,
      (fallbackTail d ((dayNumber de : Int) - (dayNumber ds : Int) + 1)).data,
      by simp [String.data_append]⟩
  · simp [generate_budget_tips, hna]
  · simp [generate_budget_tips, hna]
  · simp only [generate_fallback_budget_tips]
    repeat apply str_append_ne
    decide

/-- Witness for C6 at a concrete unavailable assistant, two distinct
oracles and a concrete record. -/
theorem offline_generation_spec_witness :
    ∃ s : String,
      generate_itinerary ⟨none⟩ (fun _ => "")
        ⟨"Paris", "France", "2024-05-01", "2024-05-05", 1500, ["Museums", "Food"]⟩ = some s ∧
      generate_itinerary ⟨none⟩ (fun _ => "other")
        ⟨"Paris", "France", "2024-05-01", "2024-05-05", 1500, ["Museums", "Food"]⟩ = some s ∧
      s ≠ "" ∧
      (dayCountText ((dayNumber ⟨2024, 5, 5⟩ : Int) - (dayNumber ⟨2024, 5, 1⟩ : Int) + 1)).data
        <:+: s.data ∧
      generate_budget_tips ⟨none⟩ (fun _ => "")
          ⟨"Paris", "France", "2024-05-01", "2024-05-05", 1500, ["Museums", "Food"]⟩ =
        some (generate_fallback_budget_tips
          ⟨"Paris", "France", "2024-05-01", "2024-05-05", 1500, ["Museums", "Food"]⟩) ∧
      generate_budget_tips ⟨none⟩ (fun _ => "other")
          ⟨"Paris", "France", "2024-05-01", "2024-05-05", 1500, ["Museums", "Food"]⟩ =
        some (generate_fallback_budget_tips
          ⟨"Paris", "France", "2024-05-01", "2024-05-05", 1500, ["Museums", "Food"]⟩) ∧
      generate_fallback_budget_tips
        ⟨"Paris", "France", "2024-05-01", "2024-05-05", 1500, ["Museums", "Food"]⟩ ≠ "" :=
  offline_generation_spec ⟨none⟩ (fun _ => "") (fun _ => "other")
    ⟨"Paris", "France", "2024-05-01", "2024-05-05", 1500, ["Museums", "Food"]⟩
    ⟨2024, 5, 1⟩ ⟨2024, 5, 5⟩ rfl (by decide) (by decide)

/-- C10: the offline itinerary template is total exactly under the
date-format precondition: when both dates parse it returns text for every
record, in particular with zero or one activity (the subscriptions are
guarded); when either date fails to parse, the call raises instead of
returning text. -/
theorem fallback_totality (d : Destination) :
    ((parseDate d.start_date).isSome → (parseDate d.end_date).isSome →
      (generate_fallback_itinerary d).isSome ∧
      (generate_fallback_itinerary { d with activities := [] }).isSome ∧
      ∀ act : String, (generate_fallback_itinerary { d with activities := [act] }).isSome) ∧
    ((parseDate d.start_date = none ∨ parseDate d.end_date = none) →
      generate_fallback_itinerary d = none) := by
  constructor
  · intro hs he
    rw [Option.isSome_iff_exists] at hs he
    obtain ⟨ds, hs⟩ := hs
    obtain ⟨de, he⟩ := he
    refine ⟨?_, ?_, fun act => ?_⟩ <;> simp [generate_fallback_itinerary, hs, he]
  · rintro (h | h)
    · cases hE : parseDate d.end_date <;> simp [generate_fallback_itinerary, h, hE]
    · simp [generate_fallback_itinerary, h]

/-- Witness for C10: a record with parseable dates and no activities gets
an itinerary; a record whose start date has month 13 — which `strptime`
rejects — raises. -/
theorem fallback_totality_witness :
    ((generate_fallback_itinerary
        ⟨"Paris", "France", "2024-05-01", "2024-05-05", 1500, []⟩).isSome = true) ∧
    generate_fallback_itinerary
      ⟨"Paris", "France", "2024-13-01", "2024-05-05", 1500, ["Museums"]⟩ = none := by
  constructor
  · exact ((fallback_totality
      ⟨"Paris", "France", "2024-05-01", "2024-05-05", 1500, []⟩).1 (by decide) (by decide)).1
  · exact (fallback_totality
      ⟨"Paris", "France", "2024-13-01", "2024-05-05", 1500, ["Museums"]⟩).2 (Or.inl (by decide))

end TravelPlanner
